import Mathlib

set_option maxHeartbeats 1000000

/-!
Verification development for the valorant-scrimbot match-setup core
(`src/main.rs`, `src/bot_service.rs`).

The shared data bundle behind `context.data` (queue, caches, map pool, draft,
phase) is embedded as the structure `BotData`; each Discord message handler of
`bot_service.rs` is embedded as a pure function `BotData → … → HandlerResult`.
External collaborators are modelled as explicit inputs (admin-role check
result, the mention list of the message, the reaction counts read back after
the vote window, the random draw) and as explicit outputs (the `Effect` list of
externally observable finalization actions).  A Rust `unwrap()` on `None` or an
out-of-bounds index is modelled by the `HandlerResult.panic` constructor,
carrying the shared data as it stood at the panic point.  Plain informational
chat sends are not modelled as effects; a handler returning
`HandlerResult.err` models the early-return branches that report a validation
failure to the invoker and leave the shared data unchanged.
-/

namespace Scrim

/-- A chat participant (serenity `User`): opaque id plus display name.
Serenity compares two `User`s by `id` alone, so every membership test below
compares ids. -/
structure User where
  id : Nat
  name : String
deriving DecidableEq

/-- The phase enum `State` from `main.rs`. -/
inductive State where
  | Queue
  | MapPick
  | CaptainPick
  | Draft
  | SidePick
  | Ready
deriving DecidableEq

/-- The `Draft` struct from `main.rs`. -/
structure Draft where
  captain_a : Option User
  captain_b : Option User
  team_a : List User
  team_b : List User
  team_b_start_side : String
  current_picker : Option User
deriving DecidableEq

/-- The voice-channel part of `DiscordConfig` consumed by `handle_ready`. -/
structure DiscordConfig where
  team_a_channel_id : Option Nat
  team_b_channel_id : Option Nat
deriving DecidableEq

/-- The shared mutable bundle stored in `context.data` (`main.rs`): phase
container, user queue, ready queue, the two id-keyed caches, the map pool and
the draft.  The `HashMap<u64, String>` caches are embedded as association
lists. -/
structure BotData where
  state : State
  user_queue : List User
  ready_queue : List User
  riot_id_cache : List (Nat × String)
  teamname_cache : List (Nat × String)
  maps : List String
  draft : Draft
deriving DecidableEq

/-- `Vec<User>::contains`: serenity user equality compares ids. -/
def elemById (u : User) (l : List User) : Bool :=
  l.any fun x => x.id == u.id

/-- `HashMap::contains_key` on an id-keyed cache. -/
def containsKey (k : Nat) (m : List (Nat × String)) : Bool :=
  m.any fun p => p.1 == k

/-- `iter().position(|r| r.id == uid)` followed by `Vec::remove(index)`:
removes the first entry whose id matches.  (The handlers only call this after
a `contains` check, so the `position(..).unwrap()` of the source cannot
panic.) -/
def removeFirstById (uid : Nat) : List User → List User
  | [] => []
  | x :: rest => if x.id == uid then rest else x :: removeFirstById uid rest

/-- The distinct validation failures the handlers report back to the invoker
by an early-return branch. -/
inductive BotError where
  | adminRequired
  | wrongPhase
  | noRiotId
  | queueFull
  | alreadyQueued
  | notInQueue
  | authorNotInQueue
  | queueNotFull
  | alreadyCaptain
  | notCaptain
  | wrongTurn
  | malformedInput
  | targetNotQueued
  | targetOnTeam
  | notCaptainB
deriving DecidableEq

/-- The externally observable finalization actions: the team announcement
(`list_teams`) and the voice-channel relocations (`guild.move_member`). -/
inductive Effect where
  | listTeams (team_a team_b : List User)
  | relocate (uid : Nat) (channel : Option Nat)
deriving DecidableEq

/-- Outcome of one message handler: normal completion with the updated shared
data and the finalization effects, a validation failure reported to the
invoker with the data unchanged, or a Rust panic (an `unwrap()` on `None` or
an out-of-bounds index) aborting the handler with the data as it stood at the
panic point. -/
inductive HandlerResult where
  | ok (d : BotData) (effects : List Effect)
  | err (d : BotData) (e : BotError)
  | panic (d : BotData) (reason : String)
deriving DecidableEq

/-- The shared data as left behind by a handler. -/
def HandlerResult.data : HandlerResult → BotData
  | .ok d _ => d
  | .err d _ => d
  | .panic d _ => d

/-- Whether the handler aborted with a Rust panic. -/
def HandlerResult.isPanic : HandlerResult → Bool
  | .panic _ _ => true
  | _ => false

/-- `handle_join` (bot_service.rs:21).  Checks, in source order: the riot-id
cache, queue fullness (`len() >= 10`), queue membership; otherwise appends the
author.  There is no phase check in the source. -/
def handle_join (d : BotData) (author : User) : HandlerResult :=
  if containsKey author.id d.riot_id_cache = false then .err d .noRiotId
  else if 10 ≤ d.user_queue.length then .err d .queueFull
  else if elemById author d.user_queue = true then .err d .alreadyQueued
  else .ok { d with user_queue := d.user_queue ++ [author] } []

/-- `handle_leave` (bot_service.rs:69): phase must be `Queue`, author must be
queued; removes the author by id. -/
def handle_leave (d : BotData) (author : User) : HandlerResult :=
  if d.state ≠ State.Queue then .err d .wrongPhase
  else if elemById author d.user_queue = false then .err d .notInQueue
  else .ok { d with user_queue := removeFirstById author.id d.user_queue } []

/-- `handle_clear` (bot_service.rs:116): after the admin check it empties the
queue unconditionally — the source contains no phase check. -/
def handle_clear (d : BotData) (isAdmin : Bool) : HandlerResult :=
  if isAdmin = false then .err d .adminRequired
  else .ok { d with user_queue := [] } []

/-- `handle_kick` (bot_service.rs:538): admin check, phase must be `Queue`,
then `msg.mentions[0]` (a panic when the message mentions nobody), membership
check, removal by id. -/
def handle_kick (d : BotData) (mentions : List User) (isAdmin : Bool) : HandlerResult :=
  if isAdmin = false then .err d .adminRequired
  else if d.state ≠ State.Queue then .err d .wrongPhase
  else
    match mentions with
    | [] => .panic d "index out of bounds: msg.mentions is empty"
    | target :: _ =>
      if elemById target d.user_queue = false then .err d .notInQueue
      else .ok { d with user_queue := removeFirstById target.id d.user_queue } []

/-- The draft reset block shared by `handle_cancel` (bot_service.rs:703) and
`handle_ready` (bot_service.rs:683): clears teams, captains and the current
picker.  The starting side is left as is, matching the source. -/
def Draft.resetTeams (dr : Draft) : Draft :=
  { dr with
    team_a := []
    team_b := []
    captain_a := none
    captain_b := none
    current_picker := none }

/-- `handle_cancel` (bot_service.rs:693): admin check, fails in phase `Queue`,
otherwise clears the ready queue and the draft fields (teams, captains,
current picker) and returns the phase to `Queue`.  It emits none of the
finalization effects: no team announcement, no relocation. -/
def handle_cancel (d : BotData) (isAdmin : Bool) : HandlerResult :=
  if isAdmin = false then .err d .adminRequired
  else if d.state = State.Queue then .err d .wrongPhase
  else
    .ok { d with
          ready_queue := []
          draft := d.draft.resetTeams
          state := State.Queue } []

/-- `handle_captain` (bot_service.rs:293): phase must be `CaptainPick`; a
claimant who already is captain A is rejected; the first claimant becomes
captain A (appended to team A), a later claimant becomes captain B (appended
to team B); once both captains are set the current picker becomes captain A
and the phase advances to `Draft`. -/
def handle_captain (d : BotData) (author : User) : HandlerResult :=
  if d.state ≠ State.CaptainPick then .err d .wrongPhase
  else
    let alreadyA : Bool :=
      match d.draft.captain_a with
      | some ca => ca.id == author.id
      | none => false
    if alreadyA then .err d .alreadyCaptain
    else
      let draft1 :=
        match d.draft.captain_a with
        | none => { d.draft with
                    captain_a := some author
                    team_a := d.draft.team_a ++ [author] }
        | some _ => { d.draft with
                      captain_b := some author
                      team_b := d.draft.team_b ++ [author] }
      match draft1.captain_a, draft1.captain_b with
      | some ca, some _ =>
        .ok { d with
              draft := { draft1 with current_picker := some ca }
              state := State.Draft } []
      | _, _ => .ok { d with draft := draft1 } []

/-- `handle_pick` (bot_service.rs:337).  Control flow in source order: phase
check; `msg.mentions[0]` (a panic when the message mentions nobody — the
`msg.mentions.is_empty()` guard of line 360 sits after this index and is
unreachable); target-queued check; `current_picker.unwrap()`; the
captain-membership check (which unwraps `captain_a` always and `captain_b`
only when the author is not captain A, mirroring the `&&` short-circuit);
turn check; the dead empty-mentions guard; target-unassigned check.  On
success the target is pushed onto the team of the captain equal to the
current picker and the picker flips; afterwards, if no queued member remains
off both teams, `captain_b.unwrap()` is read and the phase becomes
`SidePick`. -/
def handle_pick (d : BotData) (author : User) (mentions : List User) : HandlerResult :=
  if d.state ≠ State.Draft then .err d .wrongPhase
  else
    match mentions with
    | [] => .panic d "index out of bounds: msg.mentions is empty"
    | picked :: _ =>
      if elemById picked d.user_queue = false then .err d .targetNotQueued
      else
        match d.draft.current_picker with
        | none => .panic d "unwrap on None: draft.current_picker"
        | some current_picker =>
          match d.draft.captain_a with
          | none => .panic d "unwrap on None: draft.captain_a"
          | some ca =>
            let proceed : Unit → HandlerResult := fun _ =>
              if current_picker.id ≠ author.id then .err d .wrongTurn
              else if mentions.isEmpty then .err d .malformedInput
              else if (elemById picked d.draft.team_a || elemById picked d.draft.team_b) = true then
                .err d .targetOnTeam
              else
                let draft' :=
                  if ca.id = current_picker.id then
                    { d.draft with
                      team_a := d.draft.team_a ++ [picked]
                      current_picker := d.draft.captain_b }
                  else
                    { d.draft with
                      team_b := d.draft.team_b ++ [picked]
                      current_picker := some ca }
                let d' := { d with draft := draft' }
                let remaining := (d'.user_queue.filter fun u =>
                  !(elemById u draft'.team_a) && !(elemById u draft'.team_b)).length
                if remaining = 0 then
                  match draft'.captain_b with
                  | none => .panic d' "unwrap on None: draft.captain_b"
                  | some _ => .ok { d' with state := State.SidePick } []
                else .ok d' []
            if author.id ≠ ca.id then
              match d.draft.captain_b with
              | none => .panic d "unwrap on None: draft.captain_b"
              | some cb =>
                if author.id ≠ cb.id then .err d .notCaptain else proceed ()
            else proceed ()

/-! ### Concrete states used by witnesses and counterexamples -/

/-- A participant with a given id. -/
def mkUser (i : Nat) : User := ⟨i, "player"⟩

/-- A full queue of ten distinct participants. -/
def queue10 : List User := (List.range 10).map mkUser

/-- A riot-id cache covering the ten queued participants. -/
def riot10 : List (Nat × String) := (List.range 10).map fun i => (i, "rid")

/-- The blank draft the process starts with. -/
def draft0 : Draft :=
  { captain_a := none
    captain_b := none
    team_a := []
    team_b := []
    team_b_start_side := ""
    current_picker := none }

/-- A `Queue`-phase state with a full queue. -/
def dQueueEx : BotData :=
  { state := State.Queue
    user_queue := queue10
    ready_queue := []
    riot_id_cache := riot10
    teamname_cache := []
    maps := ["Ascent", "Bind"]
    draft := draft0 }

/-- A `Draft`-phase state: captains `mkUser 0` / `mkUser 1`, first pick open. -/
def dDraftEx : BotData :=
  { dQueueEx with
    state := State.Draft
    draft := { draft0 with
               captain_a := some (mkUser 0)
               captain_b := some (mkUser 1)
               team_a := [mkUser 0]
               team_b := [mkUser 1]
               current_picker := some (mkUser 0) } }

/-- A `SidePick`-phase state with both teams drafted. -/
def dSideEx : BotData :=
  { dQueueEx with
    state := State.SidePick
    draft := { draft0 with
               captain_a := some (mkUser 0)
               captain_b := some (mkUser 1)
               team_a := [mkUser 0, mkUser 2]
               team_b := [mkUser 1, mkUser 3]
               current_picker := some (mkUser 1) } }

/-- A configuration with both team voice channels set. -/
def cfgEx : DiscordConfig := { team_a_channel_id := some 100, team_b_channel_id := some 200 }

/-- A full queue whose member `mkUser 0` has no riot id in the cache. -/
def dNoRiot : BotData :=
  { dQueueEx with riot_id_cache := (List.range 9).map fun i => (i + 1, "rid") }

/-- The letter range `('a'..'z')` of bot_service.rs:213.  Rust's `..` range is
half-open, so it holds the 25 letters a through y — 'z' is excluded. -/
def a_to_z : List Char :=
  ['a', 'b', 'c', 'd', 'e', 'f', 'g', 'h', 'i', 'j', 'k', 'l', 'm',
   'n', 'o', 'p', 'q', 'r', 's', 't', 'u', 'v', 'w', 'x', 'y']

/-- `populate_unicode_emojis` (bot_service.rs:777): the letter-to-regional
indicator emoji table. -/
def populate_unicode_emojis : List (Char × String) :=
  [('a', "🇦"), ('b', "🇧"), ('c', "🇨"), ('d', "🇩"), ('e', "🇪"),
   ('f', "🇫"), ('g', "🇬"), ('h', "🇭"), ('i', "🇮"), ('j', "🇯"),
   ('k', "🇰"), ('l', "🇱"), ('m', "🇲"), ('n', "🇳"), ('o', "🇴"),
   ('p', "🇵"), ('q', "🇶"), ('r', "🇷"), ('s', "🇸"), ('t', "🇹"),
   ('u', "🇺"), ('v', "🇻"), ('w', "🇼"), ('x', "🇽"), ('y', "🇾"),
   ('z', "🇿")]

/-- `HashMap::get` on a char-keyed table. -/
def lookupChar (k : Char) : List (Char × String) → Option String
  | [] => none
  | (a, b) :: rest => if a = k then some b else lookupChar k rest

/-- `unicode_emoji_map.get(&c).unwrap()` for a letter of `a_to_z`: every such
letter is in the table, so the unwrap cannot panic and a default covers the
impossible branch. -/
def emojiOf (c : Char) : String :=
  (lookupChar c populate_unicode_emojis).getD ""

/-- `HashMap::get` on the emoji-keyed `unicode_to_maps` table. -/
def lookupMap (k : String) : List (String × String) → Option String
  | [] => none
  | (a, b) :: rest => if a = k then some b else lookupMap k rest

/-- The `unicode_to_maps` table of bot_service.rs:212: pool map number `i`
(registry order) is keyed by the emoji of letter number `i`. -/
def unicode_to_maps_of (maps : List String) : List (String × String) :=
  (maps.zip (a_to_z.take maps.length)).map fun p => (emojiOf p.2, p.1)

/-- The `ReactionResult` struct of bot_service.rs:16. -/
structure ReactionResult where
  count : Nat
  map : String
deriving DecidableEq

/-- The tally loop of bot_service.rs:242: each read-back reaction (token,
count) whose token maps to a configured map contributes a `ReactionResult`;
an unmappable token is skipped. -/
def tallyResults (unicode_to_maps : List (String × String))
    (reactions : List (String × Nat)) : List ReactionResult :=
  reactions.filterMap fun rc =>
    match lookupMap rc.1 unicode_to_maps with
    | some m => some ⟨rc.2, m⟩
    | none => none

/-- `results.iter().max_by(|x, y| x.count.cmp(&y.count))` restricted to the
count field (bot_service.rs:252): `none` on an empty list, otherwise the
maximum count. -/
def maxCount : List ReactionResult → Option Nat
  | [] => none
  | x :: xs => some (xs.foldl (fun acc m => Nat.max acc m.count) x.count)

/-- The tie handling of bot_service.rs:257: filter the results tied at the
maximum count, and either return the single entry (tie flag `false`) or the
entry at the random index — `gen_range(0, len)` is modelled as `r % len` for
an arbitrary `r`, which ranges over exactly `[0, len)` — with tie flag
`true`. -/
def resolveWith (results : List ReactionResult) (max_count r : Nat) : Option (String × Bool) :=
  let final_results := results.filter fun m => m.count == max_count
  if 1 < final_results.length then
    match final_results.get? (r % final_results.length) with
    | some m => some (m.map, true)
    | none => none
  else
    match final_results.get? 0 with
    | some m => some (m.map, false)
    | none => none

/-- Entry point of the resolution: `none` models the `unwrap()` panic of
`max_by` over an empty results list. -/
def resolveVote (results : List ReactionResult) (r : Nat) : Option (String × Bool) :=
  match maxCount results with
  | none => none
  | some max_count => resolveWith results max_count r

/-- `handle_start` (bot_service.rs:175).  Admin check; phase must be `Queue`;
the author must be queued; the queue must hold exactly 10 members.  The phase
is then set to `MapPick` *before* the map pool is examined.  Building
`unicode_to_maps` indexes `a_to_z[i]` for each pool entry, which panics when
the pool has more than 25 entries; tallying the read-back reactions and
taking `max_by(..).unwrap()` panics when the results are empty (in
particular, on an empty pool).  Otherwise the winner is resolved, the draft's
captains and teams are cleared and the phase advances to `CaptainPick`.
The reaction counts read back after the vote window and the random draw are
external inputs. -/
def handle_start (d : BotData) (author : User) (isAdmin : Bool)
    (reactions : List (String × Nat)) (r : Nat) : HandlerResult :=
  if isAdmin = false then .err d .adminRequired
  else if d.state ≠ State.Queue then .err d .wrongPhase
  else if elemById author d.user_queue = false then .err d .authorNotInQueue
  else if d.user_queue.length ≠ 10 then .err d .queueNotFull
  else
    let d1 := { d with state := State.MapPick }
    if a_to_z.length < d1.maps.length then
      .panic d1 "index out of bounds: a_to_z has only 25 letters"
    else
      let results := tallyResults (unicode_to_maps_of d1.maps) reactions
      match resolveVote results r with
      | none => .panic d1 "unwrap on None: max_by over empty results"
      | some _ =>
        .ok { d1 with
              state := State.CaptainPick
              draft := { d1.draft with
                         captain_a := none
                         captain_b := none
                         team_a := []
                         team_b := [] } } []

/-- `handle_ready` (bot_service.rs:654): unwraps both captains, announces the
teams (`list_teams`, which unwraps the riot id of every team member — a panic
when one is missing), relocates each team member to its team voice channel,
then clears the user queue, the ready queue and the draft (teams, captains,
current picker) and returns the phase to `Queue`. -/
def handle_ready (d : BotData) (cfg : DiscordConfig) : HandlerResult :=
  match d.draft.captain_a, d.draft.captain_b with
  | some _, some _ =>
    if (d.draft.team_a ++ d.draft.team_b).all
        (fun u => containsKey u.id d.riot_id_cache) = false then
      .panic d "unwrap on None: riot id missing for a team member"
    else
      .ok { d with
            user_queue := []
            ready_queue := []
            draft := d.draft.resetTeams
            state := State.Queue }
        (Effect.listTeams d.draft.team_a d.draft.team_b ::
          (d.draft.team_a.map fun u => Effect.relocate u.id cfg.team_a_channel_id) ++
          (d.draft.team_b.map fun u => Effect.relocate u.id cfg.team_b_channel_id))
  | _, _ => .panic d "unwrap on None: captain"

/-- `handle_defense_option` (bot_service.rs:458): phase must be `SidePick`,
the author must be captain B (`captain_b.unwrap()` — a panic when unset);
records starting side `"ct"`, advances the phase to `Ready` and immediately
runs `handle_ready`. -/
def handle_defense_option (d : BotData) (author : User) (cfg : DiscordConfig) : HandlerResult :=
  if d.state ≠ State.SidePick then .err d .wrongPhase
  else
    match d.draft.captain_b with
    | none => .panic d "unwrap on None: draft.captain_b"
    | some cb =>
      if author.id ≠ cb.id then .err d .notCaptainB
      else
        handle_ready { d with
                       draft := { d.draft with team_b_start_side := "ct" }
                       state := State.Ready } cfg

/-- `handle_attack_option` (bot_service.rs:477): as `handle_defense_option`
but recording starting side `"t"`. -/
def handle_attack_option (d : BotData) (author : User) (cfg : DiscordConfig) : HandlerResult :=
  if d.state ≠ State.SidePick then .err d .wrongPhase
  else
    match d.draft.captain_b with
    | none => .panic d "unwrap on None: draft.captain_b"
    | some cb =>
      if author.id ≠ cb.id then .err d .notCaptainB
      else
        handle_ready { d with
                       draft := { d.draft with team_b_start_side := "t" }
                       state := State.Ready } cfg

/-- A queue operation, for reasoning about arbitrary join/leave/kick
sequences.  `kick u` is a kick message by an admin mentioning `u`. -/
inductive QOp where
  | join (u : User)
  | leave (u : User)
  | kick (u : User)

/-- The shared data after one queue operation (whatever its reported
outcome). -/
def applyOp (d : BotData) : QOp → BotData
  | .join u => (handle_join d u).data
  | .leave u => (handle_leave d u).data
  | .kick u => (handle_kick d [u] true).data

/-- The shared data after a sequence of queue operations. -/
def applyOps (d : BotData) (ops : List QOp) : BotData :=
  ops.foldl applyOp d

/-- The queue invariant of the spec: at most 10 members and no duplicate user
ids. -/
def QueueOk (d : BotData) : Prop :=
  d.user_queue.length ≤ 10 ∧ (d.user_queue.map User.id).Nodup

/-- A `Queue`-phase state of 10 queued users with an empty map pool. -/
def dStart0 : BotData := { dQueueEx with maps := [] }

/-- A `Queue`-phase state of 10 queued users with a 26-entry map pool —
reachable, since `handle_add_map` allows up to 26 maps. -/
def dStart26 : BotData := { dQueueEx with maps := List.replicate 26 "m" }

/-- A read-back tally with two maps tied at the maximum count. -/
def votesEx : List ReactionResult := [⟨3, "A"⟩, ⟨3, "B"⟩, ⟨1, "C"⟩]

/-- A `Queue`-phase state with an empty queue. -/
def dEmptyEx : BotData := { dQueueEx with user_queue := [] }

/-- A `Queue`-phase state with a two-member queue. -/
def dSmallEx : BotData := { dQueueEx with user_queue := [mkUser 0, mkUser 1] }

/-! ### Claim C9 -/

/-- Claim C9: a participant whose id is not in the riot-id cache always fails
`join` with the registration prompt and the shared data unchanged, regardless
of queue size or membership — the cache check precedes the queue-full and
already-queued checks, so such a participant never receives those errors. -/
theorem join_requires_riot_id (d : BotData) (author : User)
    (h : containsKey author.id d.riot_id_cache = false) :
    handle_join d author = .err d .noRiotId := by
  simp [handle_join, h]

/-- Witness for C9: `mkUser 0` is in the (full) queue but unregistered, and
`join` still fails with the riot-id prompt rather than queue-full or
already-queued. -/
theorem join_requires_riot_id_witness :
    containsKey (mkUser 0).id dNoRiot.riot_id_cache = false ∧
    handle_join dNoRiot (mkUser 0) = .err dNoRiot .noRiotId :=
  ⟨by decide, join_requires_riot_id dNoRiot (mkUser 0) (by decide)⟩

/-! ### Claim C8 -/

/-- Claim C8: `cancel` fails in phase `Queue`; in every other phase it succeeds,
resets the draft state (captains, teams, current picker) and the ready queue,
returns the phase to `Queue`, and performs no finalization — its effect list is
empty, so in particular it contains no team announcement and no relocation. -/
theorem cancel_spec (d : BotData) :
    (d.state = State.Queue → handle_cancel d true = .err d .wrongPhase) ∧
    (d.state ≠ State.Queue →
      handle_cancel d true =
        .ok { d with
              ready_queue := []
              draft := d.draft.resetTeams
              state := State.Queue } []) := by
  constructor
  · intro h
    simp [handle_cancel, h]
  · intro h
    simp [handle_cancel, h]

/-- Witness for C8: `cancel` rejected in the `Queue` phase, and succeeding with
an empty effect list from a `SidePick`-phase state. -/
theorem cancel_spec_witness :
    handle_cancel dQueueEx true = .err dQueueEx .wrongPhase ∧
    handle_cancel dSideEx true =
      .ok { dSideEx with
            ready_queue := []
            draft := dSideEx.draft.resetTeams
            state := State.Queue } [] :=
  ⟨(cancel_spec dQueueEx).1 rfl, (cancel_spec dSideEx).2 (by decide)⟩

/-! ### Claim C10 -/

/-- Claim C10: a successful `cancel` leaves the waiting queue untouched —
the same list, so the same membership and the same order. -/
theorem cancel_preserves_queue (d : BotData) (h : d.state ≠ State.Queue) :
    (handle_cancel d true).data.user_queue = d.user_queue := by
  simp [handle_cancel, h, HandlerResult.data]

/-- Witness for C10 at the drafted `SidePick`-phase state. -/
theorem cancel_preserves_queue_witness :
    dSideEx.state ≠ State.Queue ∧
    (handle_cancel dSideEx true).data.user_queue = dSideEx.user_queue :=
  ⟨by decide, cancel_preserves_queue dSideEx (by decide)⟩

/-! ### Claim C6 -/

/-- Claim C6 (code bug): a `.pick` message without a mention, in phase
`Draft`, makes the handler abort with an out-of-bounds panic at
`msg.mentions[0]` (bot_service.rs:344) — the `msg.mentions.is_empty()` guard
of line 360 is unreachable, so the malformed input is not reported
recoverably as the spec requires.  The shared data is unchanged at the
panic. -/
theorem pick_no_mention_panics :
    handle_pick dDraftEx (mkUser 0) [] =
      .panic dDraftEx "index out of bounds: msg.mentions is empty" := by
  decide

/-! ### Claim C3 -/

/-- Evaluation of `handle_pick` on a single-mention message in phase `Draft`
with both captains and the current picker set: the source's check sequence
flattens to nested conditionals. -/
theorem handle_pick_eval (d : BotData) (author target ca cb cp : User)
    (hphase : d.state = State.Draft)
    (hca : d.draft.captain_a = some ca)
    (hcb : d.draft.captain_b = some cb)
    (hcp : d.draft.current_picker = some cp) :
    handle_pick d author [target] =
      if elemById target d.user_queue = false then .err d .targetNotQueued
      else if author.id ≠ ca.id ∧ author.id ≠ cb.id then .err d .notCaptain
      else if cp.id ≠ author.id then .err d .wrongTurn
      else if (elemById target d.draft.team_a || elemById target d.draft.team_b) = true then
        .err d .targetOnTeam
      else
        let draft' :=
          if ca.id = cp.id then
            { d.draft with
              team_a := d.draft.team_a ++ [target]
              current_picker := some cb }
          else
            { d.draft with
              team_b := d.draft.team_b ++ [target]
              current_picker := some ca }
        if (d.user_queue.filter fun u =>
            !(elemById u draft'.team_a) && !(elemById u draft'.team_b)).length = 0 then
          .ok { d with draft := draft', state := State.SidePick } []
        else .ok { d with draft := draft' } [] := by
  by_cases c1 : elemById target d.user_queue = false <;>
    by_cases c2 : author.id ≠ ca.id <;>
      by_cases c3 : author.id ≠ cb.id <;>
        by_cases c4 : cp.id ≠ author.id <;>
          by_cases c5 : (elemById target d.draft.team_a || elemById target d.draft.team_b) = true <;>
            by_cases c6 : ca.id = cp.id <;>
              simp [handle_pick, hphase, hca, hcb, hcp, c1, c2, c3, c4, c5, c6]

/-- Claim C3: in phase `Draft` (captains and current picker set),
`pick(actor, target)` fails with the data unchanged unless the target is
queued, the target is on neither team, the actor is a captain, and the actor
is the current picker; an actor who is a captain but not the current picker
gets `WrongTurn`; on success the target is appended to the acting captain's
team, the picker flips to the other captain, and the phase becomes `SidePick`
exactly when no queued member remains off both teams. -/
theorem pick_spec (d : BotData) (author target ca cb cp : User)
    (hphase : d.state = State.Draft)
    (hca : d.draft.captain_a = some ca)
    (hcb : d.draft.captain_b = some cb)
    (hcp : d.draft.current_picker = some cp) :
    ((elemById target d.user_queue = false ∨
      elemById target d.draft.team_a = true ∨ elemById target d.draft.team_b = true ∨
      (author.id ≠ ca.id ∧ author.id ≠ cb.id) ∨ author.id ≠ cp.id) →
      ∃ e, handle_pick d author [target] = .err d e) ∧
    (elemById target d.user_queue = true → (author.id = ca.id ∨ author.id = cb.id) →
      author.id ≠ cp.id → handle_pick d author [target] = .err d .wrongTurn) ∧
    (elemById target d.user_queue = true →
      elemById target d.draft.team_a = false → elemById target d.draft.team_b = false →
      (author.id = ca.id ∨ author.id = cb.id) → author.id = cp.id →
      ∃ d', handle_pick d author [target] = .ok d' [] ∧
        d'.user_queue = d.user_queue ∧ d'.maps = d.maps ∧
        (author.id = ca.id →
          d'.draft.team_a = d.draft.team_a ++ [target] ∧
          d'.draft.team_b = d.draft.team_b ∧
          d'.draft.current_picker = some cb) ∧
        (author.id ≠ ca.id →
          d'.draft.team_b = d.draft.team_b ++ [target] ∧
          d'.draft.team_a = d.draft.team_a ∧
          d'.draft.current_picker = some ca) ∧
        ((d.user_queue.filter fun u =>
            !(elemById u d'.draft.team_a) && !(elemById u d'.draft.team_b)).length = 0 ↔
          d'.state = State.SidePick) ∧
        (d'.state = State.SidePick ∨ d'.state = State.Draft)) := by
  have heval := handle_pick_eval d author target ca cb cp hphase hca hcb hcp
  refine ⟨?_, ?_, ?_⟩
  · intro hbad
    rw [heval]
    by_cases c1 : elemById target d.user_queue = false
    · exact ⟨.targetNotQueued, by simp [c1]⟩
    · by_cases c2 : author.id ≠ ca.id ∧ author.id ≠ cb.id
      · exact ⟨.notCaptain, by simp [c1, c2]⟩
      · by_cases c4 : cp.id ≠ author.id
        · exact ⟨.wrongTurn, by simp [c1, c2, c4]⟩
        · by_cases c5 : (elemById target d.draft.team_a || elemById target d.draft.team_b) = true
          · exact ⟨.targetOnTeam, by simp [c1, c2, c4, c5]⟩
          · exfalso
            have hq : elemById target d.user_queue = true := by
              simpa using c1
            have hteam : elemById target d.draft.team_a = false ∧
                elemById target d.draft.team_b = false := by
              simpa using c5
            have hturn : author.id = cp.id := (not_not.mp c4).symm
            rcases hbad with h | h | h | h | h
            · rw [hq] at h
              cases h
            · rw [hteam.1] at h
              cases h
            · rw [hteam.2] at h
              cases h
            · exact c2 h
            · exact h hturn
  · intro hq hcapt hturn
    rw [heval]
    have c1 : ¬ elemById target d.user_queue = false := by simp [hq]
    have c2 : ¬ (author.id ≠ ca.id ∧ author.id ≠ cb.id) := by
      rcases hcapt with h | h
      · exact fun hc => hc.1 h
      · exact fun hc => hc.2 h
    have c4 : cp.id ≠ author.id := fun h => hturn h.symm
    simp [c1, c2, c4]
  · intro hq hta htb hcapt hturn
    rw [heval]
    have c1 : ¬ elemById target d.user_queue = false := by simp [hq]
    have c2 : ¬ (author.id ≠ ca.id ∧ author.id ≠ cb.id) := by
      rcases hcapt with h | h
      · exact fun hc => hc.1 h
      · exact fun hc => hc.2 h
    have c4 : ¬ cp.id ≠ author.id := fun h => h hturn.symm
    have c5 : ¬ (elemById target d.draft.team_a || elemById target d.draft.team_b) = true := by
      simp [hta, htb]
    by_cases hcaptA : author.id = ca.id
    · have hflip : ca.id = cp.id := hcaptA.symm.trans hturn
      by_cases hrem : (d.user_queue.filter fun u =>
          !(elemById u (d.draft.team_a ++ [target])) && !(elemById u d.draft.team_b)).length = 0
      · refine ⟨{ d with
            draft := { d.draft with
                       team_a := d.draft.team_a ++ [target]
                       current_picker := some cb }
            state := State.SidePick }, ?_, rfl, rfl, ?_, ?_, ?_, ?_⟩
        · simp [c1, c2, c4, c5, hflip, hrem]
          tauto
        · intro _
          exact ⟨rfl, rfl, rfl⟩
        · intro h
          exact absurd hcaptA h
        · simp [hrem]
        · exact Or.inl rfl
      · refine ⟨{ d with
            draft := { d.draft with
                       team_a := d.draft.team_a ++ [target]
                       current_picker := some cb } }, ?_, rfl, rfl, ?_, ?_, ?_, ?_⟩
        · simp [c1, c2, c4, c5, hflip, hrem]
          tauto
        · intro _
          exact ⟨rfl, rfl, rfl⟩
        · intro h
          exact absurd hcaptA h
        · simp [hrem, hphase]
        · exact Or.inr hphase
    · have hcaptB : author.id = cb.id := by
        rcases hcapt with h | h
        · exact absurd h hcaptA
        · exact h
      have hflip : ¬ ca.id = cp.id := by
        intro h
        exact hcaptA (hturn.trans h.symm)
      by_cases hrem : (d.user_queue.filter fun u =>
          !(elemById u d.draft.team_a) && !(elemById u (d.draft.team_b ++ [target]))).length = 0
      · refine ⟨{ d with
            draft := { d.draft with
                       team_b := d.draft.team_b ++ [target]
                       current_picker := some ca }
            state := State.SidePick }, ?_, rfl, rfl, ?_, ?_, ?_, ?_⟩
        · simp [c1, c2, c4, c5, hflip, hrem]
        · intro h
          exact absurd h hcaptA
        · intro _
          exact ⟨rfl, rfl, rfl⟩
        · simp [hrem]
        · exact Or.inl rfl
      · refine ⟨{ d with
            draft := { d.draft with
                       team_b := d.draft.team_b ++ [target]
                       current_picker := some ca } }, ?_, rfl, rfl, ?_, ?_, ?_, ?_⟩
        · simp [c1, c2, c4, c5, hflip, hrem]
        · intro h
          exact absurd h hcaptA
        · intro _
          exact ⟨rfl, rfl, rfl⟩
        · simp [hrem, hphase]
        · exact Or.inr hphase

/-- Witness for C3: with captains `mkUser 0` / `mkUser 1` and `mkUser 0` to
pick, picking the queued, unassigned `mkUser 2` succeeds as described. -/
theorem pick_spec_witness :
    ∃ d', handle_pick dDraftEx (mkUser 0) [mkUser 2] = .ok d' [] ∧
      d'.user_queue = dDraftEx.user_queue ∧ d'.maps = dDraftEx.maps ∧
      ((mkUser 0).id = (mkUser 0).id →
        d'.draft.team_a = dDraftEx.draft.team_a ++ [mkUser 2] ∧
        d'.draft.team_b = dDraftEx.draft.team_b ∧
        d'.draft.current_picker = some (mkUser 1)) ∧
      ((mkUser 0).id ≠ (mkUser 0).id →
        d'.draft.team_b = dDraftEx.draft.team_b ++ [mkUser 2] ∧
        d'.draft.team_a = dDraftEx.draft.team_a ∧
        d'.draft.current_picker = some (mkUser 0)) ∧
      ((dDraftEx.user_queue.filter fun u =>
          !(elemById u d'.draft.team_a) && !(elemById u d'.draft.team_b)).length = 0 ↔
        d'.state = State.SidePick) ∧
      (d'.state = State.SidePick ∨ d'.state = State.Draft) :=
  (pick_spec dDraftEx (mkUser 0) (mkUser 2) (mkUser 0) (mkUser 1) (mkUser 0)
    rfl rfl rfl rfl).2.2 (by decide) (by decide) (by decide) (by decide) rfl

/-! ### Claim C1 -/

/-- Claim C1 (code bug): with a full queue of 10, `start` on an empty map
pool, and likewise on a 26-entry pool, does not fail with a
`NoMapsConfigured`-style report — no such error path exists in the source —
but panics (`max_by(..).unwrap()` over an empty results vec, resp. an
out-of-bounds index into the 25-letter `('a'..'z')` vec), and it does so
*after* the phase was already set to `MapPick`, so the transition is not
aborted either. -/
theorem start_bad_pool_panics :
    ((handle_start dStart0 (mkUser 0) true [] 0).isPanic = true ∧
     (handle_start dStart0 (mkUser 0) true [] 0).data.state = State.MapPick) ∧
    ((handle_start dStart26 (mkUser 0) true [] 0).isPanic = true ∧
     (handle_start dStart26 (mkUser 0) true [] 0).data.state = State.MapPick) := by
  decide

/-! ### Claim C4 -/

/-- The fold underlying `max_by` never drops below its accumulator. -/
theorem le_foldl_max (xs : List ReactionResult) (a : Nat) :
    a ≤ xs.foldl (fun acc m => Nat.max acc m.count) a := by
  induction xs generalizing a with
  | nil => exact Nat.le_refl a
  | cons x xs ih => exact Nat.le_trans (Nat.le_max_left a x.count) (ih (Nat.max a x.count))

/-- The fold underlying `max_by` dominates every list entry. -/
theorem mem_le_foldl_max (xs : List ReactionResult) (a : Nat) :
    ∀ x ∈ xs, x.count ≤ xs.foldl (fun acc m => Nat.max acc m.count) a := by
  induction xs generalizing a with
  | nil =>
    intro x hx
    cases hx
  | cons y ys ih =>
    intro x hx
    rcases List.mem_cons.mp hx with rfl | hx
    · exact Nat.le_trans (Nat.le_max_right a x.count) (le_foldl_max ys _)
    · exact ih _ x hx

/-- The fold underlying `max_by` returns its accumulator or some entry's
count. -/
theorem foldl_max_attained (xs : List ReactionResult) (a : Nat) :
    xs.foldl (fun acc m => Nat.max acc m.count) a = a ∨
    ∃ x ∈ xs, xs.foldl (fun acc m => Nat.max acc m.count) a = x.count := by
  induction xs generalizing a with
  | nil => exact Or.inl rfl
  | cons y ys ih =>
    have hstep : (y :: ys).foldl (fun acc m => Nat.max acc m.count) a =
        ys.foldl (fun acc m => Nat.max acc m.count) (Nat.max a y.count) := rfl
    rcases ih (Nat.max a y.count) with h | ⟨x, hx, heq⟩
    · by_cases hle : a ≤ y.count
      · refine Or.inr ⟨y, List.mem_cons_self y ys, ?_⟩
        rw [hstep, h]
        exact Nat.max_eq_right hle
      · refine Or.inl ?_
        rw [hstep, h]
        exact Nat.max_eq_left (Nat.le_of_not_le hle)
    · exact Or.inr ⟨x, List.mem_cons_of_mem y hx, hstep.trans heq⟩

/-- `maxCount` bounds every entry of the results list. -/
theorem maxCount_le (results : List ReactionResult) (M : Nat)
    (h : maxCount results = some M) : ∀ x ∈ results, x.count ≤ M := by
  match results, h with
  | y :: ys, h =>
    have hM : ys.foldl (fun acc m => Nat.max acc m.count) y.count = M := by
      simpa [maxCount] using h
    intro x hx
    rcases List.mem_cons.mp hx with rfl | hx
    · exact hM ▸ le_foldl_max ys x.count
    · exact hM ▸ mem_le_foldl_max ys y.count x hx

/-- `maxCount` is attained by some entry of the results list. -/
theorem maxCount_mem (results : List ReactionResult) (M : Nat)
    (h : maxCount results = some M) : ∃ x ∈ results, x.count = M := by
  match results, h with
  | y :: ys, h =>
    have hM : ys.foldl (fun acc m => Nat.max acc m.count) y.count = M := by
      simpa [maxCount] using h
    rcases foldl_max_attained ys y.count with h0 | ⟨x, hx, heq⟩
    · exact ⟨y, List.mem_cons_self y ys, (h0.symm.trans hM).symm ▸ rfl⟩
    · exact ⟨x, List.mem_cons_of_mem y hx, (heq.symm.trans hM)⟩

/-- Reduction of the tie handling when more than one result is tied. -/
theorem resolveWith_pos (results : List ReactionResult) (M r : Nat)
    (h1 : 1 < (results.filter fun m => m.count == M).length) :
    ∃ x, (results.filter fun m => m.count == M).get?
        (r % (results.filter fun m => m.count == M).length) = some x ∧
      resolveWith results M r = some (x.map, true) := by
  have hmod : r % (results.filter fun m => m.count == M).length <
      (results.filter fun m => m.count == M).length :=
    Nat.mod_lt _ (Nat.lt_of_lt_of_le Nat.one_pos (Nat.le_of_lt h1))
  have hget := List.get?_eq_get hmod
  refine ⟨_, hget, ?_⟩
  simp only [resolveWith, if_pos h1, hget]

/-- Reduction of the tie handling on a singleton tie set. -/
theorem resolveWith_singleton (results : List ReactionResult) (M r : Nat)
    (x : ReactionResult) (h : (results.filter fun m => m.count == M) = [x]) :
    resolveWith results M r = some (x.map, false) := by
  simp only [resolveWith, h]
  simp

/-- Claim C4: for every nonempty list of per-token counts, the resolution
computes the maximum count, collects the results tied at it, returns the
single tied entry with no tie flag when the maximum is attained uniquely,
and otherwise returns the tie-set entry selected by the random draw with the
tie flag set; every tied entry is selected by some draw.  Moreover the tally
ignores any token that maps to no configured map. -/
theorem vote_resolution_spec :
    (∀ (results : List ReactionResult) (r : Nat), results ≠ [] →
      ∃ M, maxCount results = some M ∧
        (∀ x ∈ results, x.count ≤ M) ∧
        (∃ x ∈ results, x.count = M) ∧
        (∃ x ∈ results.filter fun m => m.count == M,
          ∃ tb, resolveVote results r = some (x.map, tb)) ∧
        (∀ x, (results.filter fun m => m.count == M) = [x] →
          resolveVote results r = some (x.map, false)) ∧
        (1 < (results.filter fun m => m.count == M).length →
          ∃ x, (results.filter fun m => m.count == M).get?
              (r % (results.filter fun m => m.count == M).length) = some x ∧
            resolveVote results r = some (x.map, true)) ∧
        (∀ x ∈ results.filter fun m => m.count == M,
          ∃ rr tb, resolveVote results rr = some (x.map, tb))) ∧
    (∀ (um : List (String × String)) (tok : String) (c : Nat)
        (rest : List (String × Nat)), lookupMap tok um = none →
      tallyResults um ((tok, c) :: rest) = tallyResults um rest) := by
  constructor
  · intro results r hne
    match results, hne with
    | y :: ys, _ =>
      obtain ⟨M, hM⟩ : ∃ M, maxCount (y :: ys) = some M := ⟨_, rfl⟩
      have hvote : ∀ rr, resolveVote (y :: ys) rr = resolveWith (y :: ys) M rr := by
        intro rr
        simp [resolveVote, hM]
      obtain ⟨x0, hx0, hx0c⟩ := maxCount_mem (y :: ys) M hM
      have hx0t : x0 ∈ (y :: ys).filter fun m => m.count == M :=
        List.mem_filter.mpr ⟨hx0, by simp [hx0c]⟩
      have hpos : 0 < ((y :: ys).filter fun m => m.count == M).length :=
        List.length_pos.mpr (List.ne_nil_of_mem hx0t)
      refine ⟨M, hM, maxCount_le _ _ hM, maxCount_mem _ _ hM, ?_, ?_, ?_, ?_⟩
      · by_cases h1 : 1 < ((y :: ys).filter fun m => m.count == M).length
        · obtain ⟨x, hget, hres⟩ := resolveWith_pos (y :: ys) M r h1
          exact ⟨x, List.get?_mem hget, true, (hvote r).trans hres⟩
        · have hlen : ((y :: ys).filter fun m => m.count == M).length = 1 := by
            omega
          obtain ⟨x, hx⟩ := List.length_eq_one.mp hlen
          refine ⟨x, ?_, false, (hvote r).trans (resolveWith_singleton _ _ _ _ hx)⟩
          rw [hx]
          exact List.mem_singleton_self x
      · intro x hx
        exact (hvote r).trans (resolveWith_singleton _ _ _ _ hx)
      · intro h1
        obtain ⟨x, hget, hres⟩ := resolveWith_pos (y :: ys) M r h1
        exact ⟨x, hget, (hvote r).trans hres⟩
      · intro x hx
        by_cases h1 : 1 < ((y :: ys).filter fun m => m.count == M).length
        · obtain ⟨i, hi⟩ := List.mem_iff_get.mp hx
          obtain ⟨x2, hget, hres⟩ := resolveWith_pos (y :: ys) M i.val h1
          rw [Nat.mod_eq_of_lt i.isLt, List.get?_eq_get i.isLt] at hget
          have hx2 : x2 = x := (Option.some.inj hget).symm.trans hi
          exact ⟨i.val, true, (hvote i.val).trans (hx2 ▸ hres)⟩
        · have hlen : ((y :: ys).filter fun m => m.count == M).length = 1 := by
            omega
          obtain ⟨x1, hx1⟩ := List.length_eq_one.mp hlen
          have hx2 : x = x1 := by
            rw [hx1] at hx
            exact List.mem_singleton.mp hx
          exact ⟨0, false, (hvote 0).trans (hx2 ▸ resolveWith_singleton _ _ _ _ hx1)⟩
  · intro um tok c rest h
    simp [tallyResults, h]

/-- Witness for C4 at the tied tally `votesEx` with draw 1, and at a token
that maps to no configured map. -/
theorem vote_resolution_spec_witness :
    (∃ M, maxCount votesEx = some M ∧
      (∀ x ∈ votesEx, x.count ≤ M) ∧
      (∃ x ∈ votesEx, x.count = M) ∧
      (∃ x ∈ votesEx.filter fun m => m.count == M,
        ∃ tb, resolveVote votesEx 1 = some (x.map, tb)) ∧
      (∀ x, (votesEx.filter fun m => m.count == M) = [x] →
        resolveVote votesEx 1 = some (x.map, false)) ∧
      (1 < (votesEx.filter fun m => m.count == M).length →
        ∃ x, (votesEx.filter fun m => m.count == M).get?
            (1 % (votesEx.filter fun m => m.count == M).length) = some x ∧
          resolveVote votesEx 1 = some (x.map, true)) ∧
      (∀ x ∈ votesEx.filter fun m => m.count == M,
        ∃ rr tb, resolveVote votesEx rr = some (x.map, tb))) ∧
    tallyResults [("a", "A")] (("b", 5) :: [("a", 2)]) = tallyResults [("a", "A")] [("a", 2)] :=
  ⟨vote_resolution_spec.1 votesEx 1 (by decide),
   vote_resolution_spec.2 [("a", "A")] "b" 5 [("a", 2)] (by decide)⟩

/-! ### Claim C7 -/

/-- Claim C7: in phase `SidePick` with both captains set (and every team
member's riot id cached, as every drafted member joined through the riot-id
gate), `defense`/`attack` by anyone but captain B fails `NotCaptainB` with
the data unchanged; invoked by captain B, each records the starting side
(`"ct"` resp. `"t"`), advances the phase to `Ready` and runs finalization
(`handle_ready`), after which the queue and the ready queue are empty, the
draft is reset, the phase is back to `Queue`, and the effects contain the
team announcement and the relocations. -/
theorem side_pick_spec (d : BotData) (actor ca cb : User) (cfg : DiscordConfig)
    (hphase : d.state = State.SidePick)
    (hca : d.draft.captain_a = some ca)
    (hcb : d.draft.captain_b = some cb)
    (hriot : (d.draft.team_a ++ d.draft.team_b).all
        (fun u => containsKey u.id d.riot_id_cache) = true) :
    (actor.id ≠ cb.id →
      handle_defense_option d actor cfg = .err d .notCaptainB ∧
      handle_attack_option d actor cfg = .err d .notCaptainB) ∧
    (actor.id = cb.id →
      handle_defense_option d actor cfg =
        handle_ready { d with
                       draft := { d.draft with team_b_start_side := "ct" }
                       state := State.Ready } cfg ∧
      handle_attack_option d actor cfg =
        handle_ready { d with
                       draft := { d.draft with team_b_start_side := "t" }
                       state := State.Ready } cfg ∧
      handle_defense_option d actor cfg =
        .ok { d with
              user_queue := []
              ready_queue := []
              draft := { d.draft with team_b_start_side := "ct" }.resetTeams
              state := State.Queue }
          (Effect.listTeams d.draft.team_a d.draft.team_b ::
            (d.draft.team_a.map fun u => Effect.relocate u.id cfg.team_a_channel_id) ++
            (d.draft.team_b.map fun u => Effect.relocate u.id cfg.team_b_channel_id)) ∧
      handle_attack_option d actor cfg =
        .ok { d with
              user_queue := []
              ready_queue := []
              draft := { d.draft with team_b_start_side := "t" }.resetTeams
              state := State.Queue }
          (Effect.listTeams d.draft.team_a d.draft.team_b ::
            (d.draft.team_a.map fun u => Effect.relocate u.id cfg.team_a_channel_id) ++
            (d.draft.team_b.map fun u => Effect.relocate u.id cfg.team_b_channel_id))) := by
  constructor
  · intro h
    constructor
    · simp [handle_defense_option, hphase, hcb, h]
    · simp [handle_attack_option, hphase, hcb, h]
  · intro h
    refine ⟨?_, ?_, ?_, ?_⟩
    · simp [handle_defense_option, hphase, hcb, h]
    · simp [handle_attack_option, hphase, hcb, h]
    · simp only [handle_defense_option, hphase, hcb]
      simp only [handle_ready, hca, hcb, h]
      simp [hriot, Draft.resetTeams]
    · simp only [handle_attack_option, hphase, hcb]
      simp only [handle_ready, hca, hcb, h]
      simp [hriot, Draft.resetTeams]

/-- Witness for C7 at the drafted `SidePick`-phase state, with captain B
(`mkUser 1`) acting. -/
theorem side_pick_spec_witness :
    ((mkUser 1).id ≠ (mkUser 1).id →
      handle_defense_option dSideEx (mkUser 1) cfgEx = .err dSideEx .notCaptainB ∧
      handle_attack_option dSideEx (mkUser 1) cfgEx = .err dSideEx .notCaptainB) ∧
    ((mkUser 1).id = (mkUser 1).id →
      handle_defense_option dSideEx (mkUser 1) cfgEx =
        handle_ready { dSideEx with
                       draft := { dSideEx.draft with team_b_start_side := "ct" }
                       state := State.Ready } cfgEx ∧
      handle_attack_option dSideEx (mkUser 1) cfgEx =
        handle_ready { dSideEx with
                       draft := { dSideEx.draft with team_b_start_side := "t" }
                       state := State.Ready } cfgEx ∧
      handle_defense_option dSideEx (mkUser 1) cfgEx =
        .ok { dSideEx with
              user_queue := []
              ready_queue := []
              draft := { dSideEx.draft with team_b_start_side := "ct" }.resetTeams
              state := State.Queue }
          (Effect.listTeams dSideEx.draft.team_a dSideEx.draft.team_b ::
            (dSideEx.draft.team_a.map fun u => Effect.relocate u.id cfgEx.team_a_channel_id) ++
            (dSideEx.draft.team_b.map fun u => Effect.relocate u.id cfgEx.team_b_channel_id)) ∧
      handle_attack_option dSideEx (mkUser 1) cfgEx =
        .ok { dSideEx with
              user_queue := []
              ready_queue := []
              draft := { dSideEx.draft with team_b_start_side := "t" }.resetTeams
              state := State.Queue }
          (Effect.listTeams dSideEx.draft.team_a dSideEx.draft.team_b ::
            (dSideEx.draft.team_a.map fun u => Effect.relocate u.id cfgEx.team_a_channel_id) ++
            (dSideEx.draft.team_b.map fun u => Effect.relocate u.id cfgEx.team_b_channel_id))) :=
  side_pick_spec dSideEx (mkUser 1) (mkUser 0) (mkUser 1) cfgEx rfl rfl rfl (by decide)

/-! ### Claim C2 -/

/-- Counterexample to C2 as stated: `handle_clear` contains no phase check,
so an admin `clear` in the `Draft` phase succeeds and empties the non-empty
queue instead of failing `WrongPhase` without mutation. -/
theorem clear_ignores_phase_cex :
    dDraftEx.state ≠ State.Queue ∧ dDraftEx.user_queue ≠ [] ∧
    handle_clear dDraftEx true = .ok { dDraftEx with user_queue := [] } [] := by
  refine ⟨by decide, by decide, ?_⟩
  rfl

/-- Claim C2 as amended: the phase-gated mutating operations — leave, kick,
start, captain, pick, defense, attack, and cancel (whose illegal phase is
`Queue`) — fail with a wrong-phase report and leave all shared state
unchanged when invoked outside their legal phase; `clear`, however, performs
no phase check and, invoked by an admin, empties the queue in every phase
(touching nothing else). -/
theorem wrong_phase_spec :
    (∀ (d : BotData) (a : User), d.state ≠ State.Queue →
      handle_leave d a = .err d .wrongPhase) ∧
    (∀ (d : BotData) (m : List User), d.state ≠ State.Queue →
      handle_kick d m true = .err d .wrongPhase) ∧
    (∀ (d : BotData) (a : User) (rs : List (String × Nat)) (r : Nat),
      d.state ≠ State.Queue → handle_start d a true rs r = .err d .wrongPhase) ∧
    (∀ (d : BotData) (a : User), d.state ≠ State.CaptainPick →
      handle_captain d a = .err d .wrongPhase) ∧
    (∀ (d : BotData) (a : User) (m : List User), d.state ≠ State.Draft →
      handle_pick d a m = .err d .wrongPhase) ∧
    (∀ (d : BotData) (a : User) (cfg : DiscordConfig), d.state ≠ State.SidePick →
      handle_defense_option d a cfg = .err d .wrongPhase) ∧
    (∀ (d : BotData) (a : User) (cfg : DiscordConfig), d.state ≠ State.SidePick →
      handle_attack_option d a cfg = .err d .wrongPhase) ∧
    (∀ (d : BotData), d.state = State.Queue →
      handle_cancel d true = .err d .wrongPhase) ∧
    (∀ (d : BotData), handle_clear d true = .ok { d with user_queue := [] } []) := by
  refine ⟨?_, ?_, ?_, ?_, ?_, ?_, ?_, ?_, ?_⟩
  · intro d a h
    simp [handle_leave, h]
  · intro d m h
    simp [handle_kick, h]
  · intro d a rs r h
    simp [handle_start, h]
  · intro d a h
    simp [handle_captain, h]
  · intro d a m h
    simp [handle_pick, h]
  · intro d a cfg h
    simp [handle_defense_option, h]
  · intro d a cfg h
    simp [handle_attack_option, h]
  · intro d h
    simp [handle_cancel, h]
  · intro d
    simp [handle_clear]

/-- Witness for C2 (amended), instantiating every conjunct at a concrete
state of the named wrong phase. -/
theorem wrong_phase_spec_witness :
    handle_leave dDraftEx (mkUser 0) = .err dDraftEx .wrongPhase ∧
    handle_kick dDraftEx [mkUser 0] true = .err dDraftEx .wrongPhase ∧
    handle_start dDraftEx (mkUser 0) true [] 0 = .err dDraftEx .wrongPhase ∧
    handle_captain dDraftEx (mkUser 0) = .err dDraftEx .wrongPhase ∧
    handle_pick dQueueEx (mkUser 0) [mkUser 1] = .err dQueueEx .wrongPhase ∧
    handle_defense_option dDraftEx (mkUser 1) cfgEx = .err dDraftEx .wrongPhase ∧
    handle_attack_option dDraftEx (mkUser 1) cfgEx = .err dDraftEx .wrongPhase ∧
    handle_cancel dQueueEx true = .err dQueueEx .wrongPhase ∧
    handle_clear dDraftEx true = .ok { dDraftEx with user_queue := [] } [] :=
  ⟨wrong_phase_spec.1 dDraftEx (mkUser 0) (by decide),
   wrong_phase_spec.2.1 dDraftEx [mkUser 0] (by decide),
   wrong_phase_spec.2.2.1 dDraftEx (mkUser 0) [] 0 (by decide),
   wrong_phase_spec.2.2.2.1 dDraftEx (mkUser 0) (by decide),
   wrong_phase_spec.2.2.2.2.1 dQueueEx (mkUser 0) [mkUser 1] (by decide),
   wrong_phase_spec.2.2.2.2.2.1 dDraftEx (mkUser 1) cfgEx (by decide),
   wrong_phase_spec.2.2.2.2.2.2.1 dDraftEx (mkUser 1) cfgEx (by decide),
   wrong_phase_spec.2.2.2.2.2.2.2.1 dQueueEx rfl,
   wrong_phase_spec.2.2.2.2.2.2.2.2 dDraftEx⟩

/-! ### Claim C5 -/

/-- `removeFirstById` yields a sublist of its input. -/
theorem removeFirstById_sublist (uid : Nat) (l : List User) :
    List.Sublist (removeFirstById uid l) l := by
  induction l with
  | nil => simp [removeFirstById]
  | cons x rest ih =>
    simp only [removeFirstById]
    split
    · exact List.Sublist.cons x (List.Sublist.refl rest)
    · exact List.Sublist.cons₂ x ih

/-- A failed id-membership test means the id is absent from the mapped ids. -/
theorem elemById_false_not_mem (u : User) (l : List User)
    (h : elemById u l = false) : u.id ∉ l.map User.id := by
  intro hm
  rcases List.mem_map.mp hm with ⟨x, hx, hxid⟩
  have hmm : elemById u l = true := by
    simp only [elemById, List.any_eq_true]
    exact ⟨x, hx, by simp [hxid]⟩
  rw [hmm] at h
  cases h

/-- Case split on the data left behind by `handle_join`. -/
theorem handle_join_data (d : BotData) (u : User) :
    (handle_join d u).data = d ∨
    ((handle_join d u).data = { d with user_queue := d.user_queue ++ [u] } ∧
      d.user_queue.length < 10 ∧ elemById u d.user_queue = false) := by
  by_cases h1 : containsKey u.id d.riot_id_cache = false
  · left
    simp [handle_join, h1, HandlerResult.data]
  · by_cases h2 : 10 ≤ d.user_queue.length
    · left
      simp [handle_join, h1, h2, HandlerResult.data]
    · by_cases h3 : elemById u d.user_queue = true
      · left
        simp [handle_join, h1, h2, h3, HandlerResult.data]
      · right
        refine ⟨by simp [handle_join, h1, h2, h3, HandlerResult.data], ?_, ?_⟩
        · exact Nat.lt_of_not_le h2
        · simpa using h3

/-- Case split on the data left behind by `handle_leave`. -/
theorem handle_leave_data (d : BotData) (u : User) :
    (handle_leave d u).data = d ∨
    (handle_leave d u).data = { d with user_queue := removeFirstById u.id d.user_queue } := by
  by_cases h1 : d.state ≠ State.Queue
  · left
    simp [handle_leave, h1, HandlerResult.data]
  · by_cases h2 : elemById u d.user_queue = false
    · left
      simp [handle_leave, h1, h2, HandlerResult.data]
    · right
      simp [handle_leave, h1, h2, HandlerResult.data]

/-- Case split on the data left behind by an admin `handle_kick` mentioning
one user. -/
theorem handle_kick_data (d : BotData) (u : User) :
    (handle_kick d [u] true).data = d ∨
    (handle_kick d [u] true).data = { d with user_queue := removeFirstById u.id d.user_queue } := by
  by_cases h1 : d.state ≠ State.Queue
  · left
    simp [handle_kick, h1, HandlerResult.data]
  · by_cases h2 : elemById u d.user_queue = false
    · left
      simp [handle_kick, h1, h2, HandlerResult.data]
    · right
      simp [handle_kick, h1, h2, HandlerResult.data]

/-- One queue operation preserves the queue invariant. -/
theorem applyOp_queueOk (d : BotData) (op : QOp) (h : QueueOk d) :
    QueueOk (applyOp d op) := by
  obtain ⟨hlen, hnodup⟩ := h
  have hremove : ∀ uid, QueueOk { d with user_queue := removeFirstById uid d.user_queue } := by
    intro uid
    have hsub := removeFirstById_sublist uid d.user_queue
    constructor
    · exact Nat.le_trans hsub.length_le hlen
    · exact (hsub.map User.id).nodup hnodup
  cases op with
  | join u =>
    rcases handle_join_data d u with hd | ⟨hd, hlt, hmem⟩
    · rw [applyOp, hd]
      exact ⟨hlen, hnodup⟩
    · rw [applyOp, hd]
      constructor
      · simp only [List.length_append, List.length_cons, List.length_nil]
        omega
      · have hnot := elemById_false_not_mem u d.user_queue hmem
        simp only [List.map_append, List.map_cons, List.map_nil]
        rw [List.nodup_append]
        exact ⟨hnodup, List.nodup_singleton u.id, by
          intro x hx hx1
          rw [List.mem_singleton.mp hx1] at hx
          exact hnot hx⟩
  | leave u =>
    rcases handle_leave_data d u with hd | hd
    · rw [applyOp, hd]
      exact ⟨hlen, hnodup⟩
    · rw [applyOp, hd]
      exact hremove u.id
  | kick u =>
    rcases handle_kick_data d u with hd | hd
    · rw [applyOp, hd]
      exact ⟨hlen, hnodup⟩
    · rw [applyOp, hd]
      exact hremove u.id

/-- Any sequence of queue operations preserves the queue invariant. -/
theorem applyOps_queueOk (ops : List QOp) (d : BotData) (h : QueueOk d) :
    QueueOk (applyOps d ops) := by
  induction ops generalizing d with
  | nil => exact h
  | cons op ops ih => exact ih (applyOp d op) (applyOp_queueOk d op h)

/-- Counterexample to C5 as stated: on a full queue already containing the
joining participant (riot id registered), `join` reports queue-full, not
already-queued — the fullness check precedes the membership check. -/
theorem join_full_queue_cex :
    elemById (mkUser 0) dQueueEx.user_queue = true ∧
    handle_join dQueueEx (mkUser 0) = .err dQueueEx .queueFull ∧
    BotError.queueFull ≠ BotError.alreadyQueued := by
  refine ⟨by decide, ?_, by decide⟩
  rfl

/-- Claim C5 as amended: over every sequence of join/leave/kick operations
from an empty queue, the queue never exceeds 10 members and never holds two
entries with the same id; for a participant whose riot id is registered,
`join` fails queue-full when the queue holds 10 (even when the participant is
already queued), fails already-queued when the participant is present in a
non-full queue, and otherwise appends — the queue unchanged in both failure
cases. -/
theorem queue_invariant_spec :
    (∀ (d : BotData) (ops : List QOp), d.user_queue = [] → QueueOk (applyOps d ops)) ∧
    (∀ (d : BotData) (a : User), containsKey a.id d.riot_id_cache = true →
      (10 ≤ d.user_queue.length → handle_join d a = .err d .queueFull) ∧
      (d.user_queue.length < 10 → elemById a d.user_queue = true →
        handle_join d a = .err d .alreadyQueued) ∧
      (d.user_queue.length < 10 → elemById a d.user_queue = false →
        handle_join d a = .ok { d with user_queue := d.user_queue ++ [a] } [])) := by
  constructor
  · intro d ops h
    exact applyOps_queueOk ops d ⟨by simp [h], by simp [h]⟩
  · intro d a hreg
    have h1 : ¬ containsKey a.id d.riot_id_cache = false := by simp [hreg]
    refine ⟨?_, ?_, ?_⟩
    · intro hfull
      simp [handle_join, h1, hfull]
    · intro hlt hmem
      have h2 : ¬ 10 ≤ d.user_queue.length := Nat.not_le_of_lt hlt
      simp [handle_join, h1, h2, hmem]
    · intro hlt hmem
      have h2 : ¬ 10 ≤ d.user_queue.length := Nat.not_le_of_lt hlt
      simp [handle_join, h1, h2, hmem]

/-- Witness for C5 (amended): a concrete operation sequence from the empty
queue, and the three `join` outcomes at concrete states. -/
theorem queue_invariant_spec_witness :
    QueueOk (applyOps dEmptyEx
      [QOp.join (mkUser 0), QOp.join (mkUser 1), QOp.leave (mkUser 0), QOp.kick (mkUser 1)]) ∧
    handle_join dQueueEx (mkUser 0) = .err dQueueEx .queueFull ∧
    handle_join dSmallEx (mkUser 0) = .err dSmallEx .alreadyQueued ∧
    handle_join dSmallEx (mkUser 2) =
      .ok { dSmallEx with user_queue := dSmallEx.user_queue ++ [mkUser 2] } [] :=
  ⟨queue_invariant_spec.1 dEmptyEx _ rfl,
   (queue_invariant_spec.2 dQueueEx (mkUser 0) (by decide)).1 (by decide),
   (queue_invariant_spec.2 dSmallEx (mkUser 0) (by decide)).2.1 (by decide) (by decide),
   (queue_invariant_spec.2 dSmallEx (mkUser 2) (by decide)).2.2 (by decide) (by decide)⟩

end Scrim
